/-
Shallow embedding of `terra_ai_datasets/creation/arrays.py`: the ten
modality-specific array builders (Image, Text, Audio, Raw, Timeseries,
Classification, Segmentation, Regression, Depth, Trend), each with its
`create` and `preprocess` operation, and theorems checking the
specification's claims about them.

Modelling conventions:
  * numpy floating-point values are modelled as `Rat` (exact rational
    arithmetic); where IEEE non-finite values matter (Trend's division by
    zero) an explicit `PyFloat` type with `inf`/`-inf`/`nan` is used,
    mirroring numpy's true-division semantics (division by zero emits a
    RuntimeWarning and yields ±inf or nan, it does not raise);
  * n-dimensional numpy arrays are a shape plus a flat data list
    (`NdArray`); 2-D intermediates are `List (List Rat)` row lists;
  * Python operations that raise exceptions are modelled with `Option`
    (`none` = an exception propagates to the caller);
  * external collaborators (librosa load / feature extraction, fitted
    transforms, tokenizers) are function parameters of the embedded
    operations, exactly as the spec treats them (opaque, fitted outside);
  * `int.__truediv__` on numpy scalars, `round(x, 0)` (banker's
    rounding), `str.split`, `float(...)` and `list.index` are translated
    faithfully from their Python semantics.
-/
import Mathlib

/-- An n-dimensional numpy array: a shape and the row-major flat data. -/
structure NdArray where
  shape : List Nat
  data : List Rat
  deriving DecidableEq, Repr

/-- `np.array` of a 1-D list. -/
def ndOfVec (v : List Rat) : NdArray := ⟨[v.length], v⟩

/-- `np.array` of a rectangular 2-D row list (shape `(rows, cols)`). -/
def ndOfMatrix (m : List (List Rat)) : NdArray :=
  ⟨[m.length, (m.headD []).length], m.flatten⟩

/-- `np.zeros(n)` followed by `zeros[i] = 1`: a one-hot vector. -/
def oneHot (n i : Nat) : List Nat := (List.replicate n 0).set i 1

/-- `np.reshape(target_shape)`: succeeds iff the element count matches. -/
def ndReshape (a : NdArray) (s : List Nat) : Option NdArray :=
  if a.data.length = s.prod then some ⟨s, a.data⟩ else none

/-- Value of a digit string (assumes all characters are digits). -/
def digitsToNat (cs : List Char) : Nat :=
  cs.foldl (fun a c => a * 10 + (c.toNat - 48)) 0

/-- Unsigned part of a Python float literal: `digits`, `digits.digits`,
`digits.` or `.digits` (exponents and inf/nan literals are not modelled:
no claim exercises them). -/
def parseUnsignedRat (cs : List Char) : Option Rat :=
  let p := cs.span (fun c => c.isDigit)
  match p.2 with
  | [] => if p.1 = [] then none else some (digitsToNat p.1 : Rat)
  | c :: fp =>
      if c = '.' && fp.all (fun d => d.isDigit) && (p.1 ≠ [] || fp ≠ []) then
        some ((digitsToNat p.1 : Rat) + (digitsToNat fp : Rat) / (10 : Rat) ^ fp.length)
      else none

/-- Strip leading and trailing whitespace (Python `str.strip`, which
`float` applies to its argument). -/
def trimChars (cs : List Char) : List Char :=
  ((cs.dropWhile (fun c => c.isWhitespace)).reverse.dropWhile
    (fun c => c.isWhitespace)).reverse

/-- Python `float` on a character list: strip whitespace, optional sign,
decimal literal; `none` models the `ValueError` on an unparsable string. -/
def floatParseChars (s : List Char) : Option Rat :=
  match trimChars s with
  | '+' :: cs => parseUnsignedRat cs
  | '-' :: cs => (parseUnsignedRat cs).map (fun q => -q)
  | cs => parseUnsignedRat cs

/-- Python `float(source)` on a string. -/
def floatParse (s : String) : Option Rat := floatParseChars s.toList

/-- Python `str.split(sep)` for a one-character separator: split on every
occurrence, keeping empty parts (`"".split(sep) == ['']`). -/
def splitOnChar (sep : Char) (cs : List Char) : List (List Char) :=
  cs.foldr (fun c acc => match acc with
    | [] => [[]]
    | cur :: rest => if c = sep then [] :: cur :: rest else (c :: cur) :: rest) [[]]

/-- Python `round(x, 0)`: round half to even (banker's rounding). -/
def pyRound (q : Rat) : Int :=
  let f := q.floor
  let frac := q - (f : Rat)
  if frac < 1 / 2 then f
  else if 1 / 2 < frac then f + 1
  else if f % 2 = 0 then f else f + 1

/- ------------------------------------------------------------------ -/
/- Text                                                                -/
/- ------------------------------------------------------------------ -/

inductive TextProcessTypes | embedding | bag_of_words | word_to_vec
  deriving DecidableEq, Repr

inductive TextModeTypes | full | length_and_step
  deriving DecidableEq, Repr

structure TextValidator where
  preprocessing : TextProcessTypes
  mode : TextModeTypes
  max_words : Nat
  length : Nat
  word2vec_size : Nat
  deriving Repr

/-- A per-sample intermediate of `TextArray.preprocess`: an integer-id
sequence (embedding), a numeric vector (bag-of-words) or a list of word
vectors (word-to-vec); Python holds these in one dynamically typed
variable. -/
inductive TextSample
  | seq (ids : List Nat)
  | vec (v : List Rat)
  | mat (m : List (List Rat))
  deriving DecidableEq, Repr

namespace TextArray

/-- `TextArray.create`: returns the source unchanged. -/
def create (source : String) (_parameters : TextValidator) : String := source

/-- The body of `TextArray.preprocess` for one element of `text_list`.
`toSeq` models `preprocess_obj.texts_to_sequences([text])[0]`, `toMat`
models `preprocess_obj.texts_to_matrix([text])[0]`, and `wv` models the
word-to-vector lookup `preprocess_obj.wv[word]` (`none` = `KeyError`). -/
def preprocessOne (toSeq : String → List Nat) (toMat : String → List Rat)
    (wv : String → Option (List Rat)) (text : String) (p : TextValidator) :
    TextSample :=
  match p.preprocessing with
  | .embedding =>
      let text_array := toSeq text
      if p.mode = .full && text_array.length < p.max_words then
        .seq (text_array ++ List.replicate (p.max_words - text_array.length) 0)
      else if p.mode = .full && text_array.length > p.max_words then
        .seq (text_array.take p.max_words)
      else if p.mode = .length_and_step && text_array.length < p.length then
        .seq (text_array ++ List.replicate (p.length - text_array.length) 0)
      else .seq text_array
  | .bag_of_words => .vec (toMat text)
  | .word_to_vec =>
      let text_array := (text.splitOn " ").map (fun word =>
        match wv word with
        | some v => v
        | none => List.replicate p.word2vec_size 0)
      if text_array.length < p.length then
        .mat (text_array ++ List.replicate (p.length - text_array.length)
          (List.replicate p.word2vec_size 0))
      else .mat text_array

/-- `TextArray.preprocess`: map `preprocessOne` over the text list. -/
def preprocess (toSeq : String → List Nat) (toMat : String → List Rat)
    (wv : String → Option (List Rat)) (text_list : List String)
    (p : TextValidator) : List TextSample :=
  text_list.map (fun t => preprocessOne toSeq toMat wv t p)

end TextArray

/- ------------------------------------------------------------------ -/
/- Timeseries                                                          -/
/- ------------------------------------------------------------------ -/

structure TimeseriesValidator where
  length : Nat
  deriving Repr

namespace TimeseriesArray

/-- `TimeseriesArray.create`: pad a shorter source with trailing zeros up
to `parameters.length`; a source of at least that length passes through
unchanged (there is no truncation branch). -/
def create (source : List Rat) (parameters : TimeseriesValidator) : List Rat :=
  if source.length < parameters.length then
    source ++ List.replicate (parameters.length - source.length) 0
  else source

end TimeseriesArray

/- ------------------------------------------------------------------ -/
/- Audio                                                               -/
/- ------------------------------------------------------------------ -/

inductive AudioParameterTypes
  | chroma_stft | mfcc | spectral_centroid | spectral_bandwidth
  | spectral_rolloff | rms | zero_crossing_rate | audio_signal
  deriving DecidableEq, Repr

structure AudioValidator where
  parameter : List AudioParameterTypes
  sample_rate : Nat
  resample : String
  deriving Repr

/-- `np.transpose` of a 2-D array: element `(j, i)` of the result is
element `(i, j)` of the input; the column count is read off the first row
(numpy arrays are rectangular). -/
def matTranspose (m : List (List Rat)) : List (List Rat) :=
  (List.range (m.headD []).length).map (fun j => m.map (fun row => row.getD j 0))

namespace AudioArray

/-- The source-parsing prelude of `AudioArray.create`:
`audio_path, start_stop = source.split(';')` (exactly two parts, else the
tuple unpacking raises) then `offset, stop = [float(x) for x in
start_stop.split(':')]` (exactly two parts, each a float literal). -/
def parseSource (source : String) : Option (String × Rat × Rat) :=
  match splitOnChar ';' source.toList with
  | [audio_path, start_stop] =>
      match splitOnChar ':' start_stop with
      | [s1, s2] =>
          match floatParseChars s1, floatParseChars s2 with
          | some offset, some stop => some (String.mk audio_path, offset, stop)
          | _, _ => none
      | _ => none
  | _ => none

/-- `AudioArray.create`. `load` models `librosa.load(path, sr, offset,
duration, res_type)` (returning the decoded waveform); `feat` models the
`librosa.feature` functions, each returning its underlying 2-D
`(rows, frames)` matrix (for `rms` and `zero_crossing_rate` that is one
row). After silence-padding, the feature is computed, `np.array`-ed, and
transposed when 2-D; the float32 downcast is value-preserving here. -/
def create (load : String → Nat → Rat → Rat → String → List Rat)
    (feat : AudioParameterTypes → Nat → List Rat → List (List Rat))
    (source : String) (parameters : AudioValidator) : Option NdArray := do
  let parameter ← parameters.parameter.head?
  let (audio_path, offset, stop) ← parseSource source
  let duration := stop - offset
  let y0 := load audio_path parameters.sample_rate offset duration parameters.resample
  let target := pyRound ((parameters.sample_rate : Rat) * duration)
  let y := if target > (y0.length : Int) then
    y0 ++ List.replicate (target - (y0.length : Int)).toNat 0 else y0
  match parameter with
  | .rms =>
      match feat .rms parameters.sample_rate y with
      | [] => none
      | row0 :: _ => some (ndOfVec row0)
  | .zero_crossing_rate =>
      some (ndOfMatrix (matTranspose (feat .zero_crossing_rate parameters.sample_rate y)))
  | .audio_signal => some (ndOfVec y)
  | p => some (ndOfMatrix (matTranspose (feat p parameters.sample_rate y)))

/-- `AudioArray.preprocess`: save the shape; if multi-dimensional,
reshape to a column; apply the fitted transform; reshape back. -/
def preprocess (transform : NdArray → NdArray) (a : NdArray) : Option NdArray :=
  let arr := if a.shape.length > 1 then (⟨[a.data.length, 1], a.data⟩ : NdArray) else a
  ndReshape (transform arr) a.shape

end AudioArray

/- ------------------------------------------------------------------ -/
/- Raw                                                                 -/
/- ------------------------------------------------------------------ -/

namespace RawArray

/-- `RawArray.create`: wrap the source as an array. -/
def create (source : List Rat) : NdArray := ndOfVec source

/-- `RawArray.preprocess`: identity. -/
def preprocess (a : NdArray) : NdArray := a

end RawArray

/-- The shared column-transform pattern of `TimeseriesArray.preprocess`,
`RegressionArray.preprocess` and `DepthArray.preprocess`: reshape to a
column, apply the fitted transform, restore the original shape. -/
def columnTransformPreprocess (transform : NdArray → NdArray) (a : NdArray) :
    Option NdArray :=
  ndReshape (transform ⟨[a.data.length, 1], a.data⟩) a.shape

namespace TimeseriesArray

/-- `TimeseriesArray.preprocess`. -/
def preprocess (transform : NdArray → NdArray) (a : NdArray) : Option NdArray :=
  columnTransformPreprocess transform a

end TimeseriesArray

/- ------------------------------------------------------------------ -/
/- Classification (and Categorical, a behavioural alias)               -/
/- ------------------------------------------------------------------ -/

structure ClassificationValidator where
  classes_names : List String
  one_hot_encoding : Bool
  deriving Repr

/-- The result of `ClassificationArray.create`: a bare index or a uint8
one-hot vector, per the `one_hot_encoding` flag. -/
inductive ClassResult
  | idx (i : Nat)
  | ohe (v : List Nat)
  deriving DecidableEq, Repr

namespace ClassificationArray

/-- `ClassificationArray.create`: `classes_names.index(source)` (raises
`ValueError`, i.e. `none`, when absent); one-hot-expand on demand. -/
def create (source : String) (parameters : ClassificationValidator) :
    Option ClassResult :=
  match parameters.classes_names.indexOf? source with
  | none => none
  | some i =>
      if parameters.one_hot_encoding then
        some (.ohe (oneHot parameters.classes_names.length i))
      else some (.idx i)

/-- `ClassificationArray.preprocess`: identity. -/
def preprocess (a : NdArray) : NdArray := a

end ClassificationArray

/- ------------------------------------------------------------------ -/
/- Segmentation                                                        -/
/- ------------------------------------------------------------------ -/

/-- A pixel: three integer channel values (R, G, B). -/
structure Pixel where
  r : Int
  g : Int
  b : Int
  deriving DecidableEq, Repr

structure SegmentationValidator where
  classes : List Pixel
  rgb_range : Int
  deriving Repr

namespace SegmentationArray

/-- The per-class, per-pixel test of `SegmentationArray.image_to_ohe`:
all three channel values lie within `color_channel ± rgb_range`. -/
def pixelInClass (color px : Pixel) (mask_range : Int) : Bool :=
  (color.r + mask_range ≥ px.r) && (px.r ≥ color.r - mask_range) &&
  (color.g + mask_range ≥ px.g) && (px.g ≥ color.g - mask_range) &&
  (color.b + mask_range ≥ px.b) && (px.b ≥ color.b - mask_range)

/-- `SegmentationArray.image_to_ohe`: for each configured class colour,
a binary mask over the image; masks stacked along a new trailing axis so
`result[i][j][k]` is 1 iff pixel `(i, j)` falls in class `k`'s tolerance
window, classes in the configured dictionary order (uint8). -/
def image_to_ohe (img : List (List Pixel)) (parameters : SegmentationValidator) :
    List (List (List Nat)) :=
  img.map (fun row => row.map (fun px =>
    parameters.classes.map (fun color =>
      if pixelInClass color px parameters.rgb_range then 1 else 0)))

/-- `SegmentationArray.preprocess`: identity. -/
def preprocess (a : NdArray) : NdArray := a

end SegmentationArray

/- ------------------------------------------------------------------ -/
/- Regression / Depth                                                  -/
/- ------------------------------------------------------------------ -/

namespace RegressionArray

/-- `RegressionArray.create`: `np.array(float(source))` — a 0-d scalar;
`none` models the `ValueError` from `float` on an unparsable string. -/
def create (source : String) : Option NdArray :=
  (floatParse source).map (fun q => ⟨[], [q]⟩)

/-- `RegressionArray.preprocess`. -/
def preprocess (transform : NdArray → NdArray) (a : NdArray) : Option NdArray :=
  columnTransformPreprocess transform a

end RegressionArray

namespace DepthArray

/-- `DepthArray.create`: wrap the numeric sequence directly. -/
def create (source : List Rat) : NdArray := ndOfVec source

/-- `DepthArray.preprocess`. -/
def preprocess (transform : NdArray → NdArray) (a : NdArray) : Option NdArray :=
  columnTransformPreprocess transform a

end DepthArray

/- ------------------------------------------------------------------ -/
/- Trend                                                               -/
/- ------------------------------------------------------------------ -/

/-- A numpy floating-point scalar at the value level: a finite rational
or one of the IEEE non-finite values. Numpy true division by zero does
not raise — it emits a RuntimeWarning (the default `np.seterr` policy)
and yields ±inf, or nan for 0/0. -/
inductive PyFloat
  | fin (q : Rat)
  | inf
  | ninf
  | nan
  deriving DecidableEq, Repr

namespace PyFloat

/-- True division of finite values (the only case Trend produces). -/
def divFin (a b : Rat) : PyFloat :=
  if b = 0 then (if a > 0 then .inf else if a < 0 then .ninf else .nan)
  else .fin (a / b)

/-- `abs` on a numpy scalar. -/
def pyabs : PyFloat → PyFloat
  | .fin q => .fin |q|
  | .inf => .inf
  | .ninf => .inf
  | .nan => .nan

/-- Multiplication by a positive finite constant. -/
def mulPos : PyFloat → Rat → PyFloat
  | .fin q, c => .fin (q * c)
  | .inf, _ => .inf
  | .ninf, _ => .ninf
  | .nan, _ => .nan

/-- `x <= d` for a finite `d`: any comparison with nan is false, and
`inf <= d` is false, `-inf <= d` true. -/
def leFin : PyFloat → Rat → Bool
  | .fin q, d => q ≤ d
  | .inf, _ => false
  | .ninf, _ => true
  | .nan, _ => false

end PyFloat

structure TrendValidator where
  deviation : Rat
  one_hot_encoding : Bool
  deriving Repr

/-- The result of `TrendArray.create`: a bare label or a uint8 one-hot
vector of length 3, per the `one_hot_encoding` flag. -/
inductive TrendResult
  | label (n : Nat)
  | ohe (v : List Nat)
  deriving DecidableEq, Repr

namespace TrendArray

/-- `TrendArray.create`: take the first two values (an index error, i.e.
`none`, if the sequence has fewer than two); label 0 if
`abs((v1 - v0) / v0) * 100 <= deviation`, else 1 if `v1 > v0`, else 2;
optionally one-hot encode into a length-3 uint8 vector. The division is
numpy true division (`PyFloat.divFin`): a zero denominator yields
±inf/nan, for which the flat comparison is false. -/
def create (source : List Rat) (parameters : TrendValidator) : Option TrendResult :=
  match source with
  | first_val :: second_val :: _ =>
      let pct := (PyFloat.divFin (second_val - first_val) first_val).pyabs.mulPos 100
      let label : Nat :=
        if pct.leFin parameters.deviation then 0
        else if second_val > first_val then 1
        else 2
      if parameters.one_hot_encoding then some (.ohe (oneHot 3 label))
      else some (.label label)
  | _ => none

/-- `TrendArray.preprocess`: identity. -/
def preprocess (a : NdArray) : NdArray := a

end TrendArray

/- ------------------------------------------------------------------ -/
/- Image                                                               -/
/- ------------------------------------------------------------------ -/

inductive ImageScalers | min_max_scaler | terra_image_scaler | no_scaler
  deriving DecidableEq, Repr

structure ImageValidator where
  preprocessing : ImageScalers
  deriving Repr

/-- Element type tag of a numpy array (only what the builders use). -/
inductive DType | float32 | float64 | uint8 | native
  deriving DecidableEq, Repr

/-- A mutable numpy array as seen by `ImageArray.preprocess` under the
`terra_image_scaler` policy: a dtype tag and the per-row contents (each
row the flattened `array[i]` slice). -/
structure PyArray where
  dtype : DType
  rows : List (List Rat)
  deriving DecidableEq, Repr

/-- `array.astype(np.float32)`: numpy's default `copy=True` — always a
fresh array (value-preserving in this rational model). -/
def astypeF32 (a : PyArray) : PyArray := ⟨.float32, a.rows⟩

/-- A heap of arrays, addressed by index, to make aliasing and in-place
mutation observable. -/
structure Mem where
  arrays : List PyArray
  deriving Repr

namespace Mem

/-- Read the array at an address. -/
def get (m : Mem) (addr : Nat) : PyArray := m.arrays.getD addr ⟨.native, []⟩

/-- Allocate a fresh array, returning its (new) address. -/
def alloc (m : Mem) (a : PyArray) : Mem × Nat :=
  (⟨m.arrays ++ [a]⟩, m.arrays.length)

/-- `array[i] = r`: in-place write of row `i` of the array at `addr`. -/
def setRow (m : Mem) (addr i : Nat) (r : List Rat) : Mem :=
  ⟨m.arrays.set addr { m.get addr with rows := (m.get addr).rows.set i r }⟩

end Mem

namespace ImageArray

/-- The `terra_image_scaler` branch of `ImageArray.preprocess`:
`array = array.astype(np.float32)` allocates a fresh array, then
`for i in range(len(array)): array[i] = transform(array[i])` rewrites
each row of that fresh array in place, reading back the (partially
rewritten) fresh array. Returns the final heap and the address of the
returned array. -/
def preprocessTerra (transform : List Rat → List Rat) (m : Mem) (addr : Nat) :
    Mem × Nat :=
  let a := m.get addr
  let (m1, fresh) := m.alloc (astypeF32 a)
  let m2 := (List.range a.rows.length).foldl
    (fun acc i => acc.setRow fresh i (transform ((acc.get fresh).rows.getD i [])))
    m1
  (m2, fresh)

/-- The non-terra branch of `ImageArray.preprocess`: the pure
column-transform pattern, with a float32 cast of the transform output. -/
def preprocessStandard (transform : NdArray → NdArray) (a : NdArray) :
    Option NdArray :=
  ndReshape (transform ⟨[a.data.length, 1], a.data⟩) a.shape

end ImageArray

/- ------------------------------------------------------------------ -/
/- Theorems                                                            -/
/- ------------------------------------------------------------------ -/

/-- C1 counterexample: `TimeseriesArray.create` has no truncation branch,
so with `length = 5` a 6-element source yields a 6-element tensor while a
3-element source yields a 5-element one — the output shape is not
determined by the parameters alone. -/
theorem timeseries_shape_depends_on_source :
    ¬ ((TimeseriesArray.create [1, 2, 3, 4, 5, 6] ⟨5⟩).length
       = (TimeseriesArray.create [1, 2, 3] ⟨5⟩).length) := by
  decide

/-- C1 (amended): the length of `TimeseriesArray.create source ⟨L⟩` is
`max source.length L` — a source shorter than `L` is right-padded with
zeros to exactly `L` (in particular `[v0, v1, v2]` with `length = 5`
becomes `[v0, v1, v2, 0, 0]`), while a source of `L` or more elements
passes through unchanged, so the output shape depends only on the
parameters only for sources no longer than the configured length. -/
theorem timeseries_create_length :
    (∀ (source : List Rat) (L : Nat),
      (TimeseriesArray.create source ⟨L⟩).length = max source.length L)
    ∧ (∀ (source : List Rat) (L : Nat), ¬ source.length < L →
      TimeseriesArray.create source ⟨L⟩ = source)
    ∧ (∀ v0 v1 v2 : Rat,
      TimeseriesArray.create [v0, v1, v2] ⟨5⟩ = [v0, v1, v2, 0, 0]) := by
  refine ⟨?_, ?_, ?_⟩
  · intro source L
    unfold TimeseriesArray.create
    by_cases h : source.length < L <;> simp [h] <;> omega
  · intro source L h
    unfold TimeseriesArray.create
    simp [h]
  · intro v0 v1 v2
    show TimeseriesArray.create [v0, v1, v2] ⟨5⟩ = [v0, v1, v2, 0, 0]
    unfold TimeseriesArray.create
    norm_num [List.replicate]

/-- C1 witness: instantiating the amended claim at concrete inputs:
a 3-element source with `length = 5` yields the padded 5-element tensor,
and a 6-element source passes through with length 6. -/
theorem timeseries_create_length_witness :
    (TimeseriesArray.create [1, 2, 3] ⟨5⟩).length = max 3 5
    ∧ TimeseriesArray.create [1, 2, 3, 4, 5, 6] ⟨5⟩ = [1, 2, 3, 4, 5, 6]
    ∧ TimeseriesArray.create [(1 : Rat), 2, 3] ⟨5⟩ = [1, 2, 3, 0, 0] := by
  refine ⟨?_, ?_, ?_⟩
  · have h := timeseries_create_length.1 [1, 2, 3] 5
    simpa using h
  · exact timeseries_create_length.2.1 [1, 2, 3, 4, 5, 6] 5 (by norm_num)
  · exact timeseries_create_length.2.2 1 2 3

/-- C2: in embedding mode, `TextArray.preprocess` right-pads a token-id
sequence shorter than `max_words` with zeros to exactly `max_words` when
the mode is "full", truncates to the first `max_words` ids when longer,
and in "length_and_step" mode always returns the ids followed by
`length - len` zeros — padding to `length` when shorter and applying no
truncation otherwise; with `max_words = 4`, `[7, 9]` becomes
`[7, 9, 0, 0]` and `[7, 9, 3, 5, 8]` becomes `[7, 9, 3, 5]`. -/
theorem text_embedding_pad_truncate :
    (∀ (toSeq : String → List Nat) (toMat : String → List Rat)
       (wv : String → Option (List Rat)) (text : String) (p : TextValidator),
      p.preprocessing = .embedding →
      (p.mode = .full → (toSeq text).length < p.max_words →
        TextArray.preprocessOne toSeq toMat wv text p =
          .seq (toSeq text ++ List.replicate (p.max_words - (toSeq text).length) 0)
        ∧ (toSeq text ++ List.replicate (p.max_words - (toSeq text).length) 0).length
          = p.max_words)
      ∧ (p.mode = .full → (toSeq text).length > p.max_words →
        TextArray.preprocessOne toSeq toMat wv text p =
          .seq ((toSeq text).take p.max_words))
      ∧ (p.mode = .length_and_step →
        TextArray.preprocessOne toSeq toMat wv text p =
          .seq (toSeq text ++ List.replicate (p.length - (toSeq text).length) 0)
        ∧ ((toSeq text).length < p.length →
          (toSeq text ++ List.replicate (p.length - (toSeq text).length) 0).length
            = p.length)))
    ∧ (∀ (toMat : String → List Rat) (wv : String → Option (List Rat)) (text : String),
      TextArray.preprocessOne (fun _ => [7, 9]) toMat wv text
        ⟨.embedding, .full, 4, 0, 0⟩ = .seq [7, 9, 0, 0]
      ∧ TextArray.preprocessOne (fun _ => [7, 9, 3, 5, 8]) toMat wv text
        ⟨.embedding, .full, 4, 0, 0⟩ = .seq [7, 9, 3, 5]) := by
  constructor
  · intro toSeq toMat wv text p hemb
    refine ⟨?_, ?_, ?_⟩
    · intro hmode hlt
      constructor
      · unfold TextArray.preprocessOne
        rw [hemb]
        simp [hmode, hlt]
      · simp
        omega
    · intro hmode hgt
      have hnlt : ¬ (toSeq text).length < p.max_words := by omega
      unfold TextArray.preprocessOne
      rw [hemb]
      simp [hmode, hnlt, hgt]
    · intro hmode
      constructor
      · unfold TextArray.preprocessOne
        rw [hemb]
        by_cases hlt : (toSeq text).length < p.length
        · simp [hmode, hlt]
        · have : p.length - (toSeq text).length = 0 := by omega
          simp [hmode, hlt, this]
      · intro hlt
        simp
        omega
  · intro toMat wv text
    exact ⟨rfl, rfl⟩

/-- C2 witness: the general statement instantiated for a concrete
tokenizer: full mode pads `[7, 9]` to `[7, 9, 0, 0]` (length 4),
truncates `[7, 9, 3, 5, 8]` to `[7, 9, 3, 5]`, and length_and_step mode
pads `[7, 9]` to `[7, 9, 0]` with `length = 3`. -/
theorem text_embedding_pad_truncate_witness :
    (TextArray.preprocessOne (fun _ => [7, 9]) (fun _ => []) (fun _ => none) "t"
      ⟨.embedding, .full, 4, 0, 0⟩ = .seq ([7, 9] ++ List.replicate 2 0)
      ∧ ([7, 9] ++ List.replicate (4 - 2) (0 : Nat)).length = 4)
    ∧ TextArray.preprocessOne (fun _ => [7, 9, 3, 5, 8]) (fun _ => []) (fun _ => none) "t"
      ⟨.embedding, .full, 4, 0, 0⟩ = .seq ([7, 9, 3, 5, 8].take 4)
    ∧ TextArray.preprocessOne (fun _ => [7, 9]) (fun _ => []) (fun _ => none) "t"
      ⟨.embedding, .length_and_step, 0, 3, 0⟩ = .seq ([7, 9] ++ List.replicate 1 0) := by
  refine ⟨⟨?_, ?_⟩, ?_, ?_⟩
  · have h := ((text_embedding_pad_truncate.1 (fun _ => [7, 9]) (fun _ => [])
      (fun _ => none) "t" ⟨.embedding, .full, 4, 0, 0⟩ rfl).1 rfl (by norm_num)).1
    simpa using h
  · exact ((text_embedding_pad_truncate.1 (fun _ => [7, 9]) (fun _ => [])
      (fun _ => none) "t" ⟨.embedding, .full, 4, 0, 0⟩ rfl).1 rfl (by norm_num)).2
  · exact (text_embedding_pad_truncate.1 (fun _ => [7, 9, 3, 5, 8]) (fun _ => [])
      (fun _ => none) "t" ⟨.embedding, .full, 4, 0, 0⟩ rfl).2.1 rfl (by norm_num)
  · have h := ((text_embedding_pad_truncate.1 (fun _ => [7, 9]) (fun _ => [])
      (fun _ => none) "t" ⟨.embedding, .length_and_step, 0, 3, 0⟩ rfl).2.2 rfl).1
    simpa using h

/-- For a nonzero denominator the Trend percentage test is the plain
rational comparison. -/
lemma trend_flat_test_fin (v0 v1 d : Rat) (h : v0 ≠ 0) :
    ((PyFloat.divFin (v1 - v0) v0).pyabs.mulPos 100).leFin d
      = decide (|(v1 - v0) / v0| * 100 ≤ d) := by
  simp [PyFloat.divFin, PyFloat.pyabs, PyFloat.mulPos, PyFloat.leFin, h]

/-- `TrendArray.create` on a sequence with nonzero first value, fully
case-analysed. -/
lemma trend_create_cases (v0 v1 : Rat) (rest : List Rat) (p : TrendValidator)
    (h0 : v0 ≠ 0) :
    (|(v1 - v0) / v0| * 100 ≤ p.deviation →
      TrendArray.create (v0 :: v1 :: rest) p =
        (if p.one_hot_encoding then some (.ohe (oneHot 3 0)) else some (.label 0)))
    ∧ (¬ |(v1 - v0) / v0| * 100 ≤ p.deviation → v1 > v0 →
      TrendArray.create (v0 :: v1 :: rest) p =
        (if p.one_hot_encoding then some (.ohe (oneHot 3 1)) else some (.label 1)))
    ∧ (¬ |(v1 - v0) / v0| * 100 ≤ p.deviation → ¬ v1 > v0 →
      TrendArray.create (v0 :: v1 :: rest) p =
        (if p.one_hot_encoding then some (.ohe (oneHot 3 2)) else some (.label 2))) := by
  refine ⟨?_, ?_, ?_⟩
  · intro hle
    unfold TrendArray.create
    simp [trend_flat_test_fin v0 v1 p.deviation h0, hle]
  · intro hnle hgt
    unfold TrendArray.create
    simp [trend_flat_test_fin v0 v1 p.deviation h0, hnle, hgt]
  · intro hnle hngt
    unfold TrendArray.create
    simp [trend_flat_test_fin v0 v1 p.deviation h0, hnle, hngt]

/-- C4: on a sequence starting `v0, v1` with `v0 ≠ 0`, `TrendArray.create`
labels 0 ("flat") when `|(v1 - v0)/v0 · 100| ≤ deviation`, else 1 ("up")
when `v1 > v0`, else 2 ("down") — the up test runs only after the flat
test fails, so `v1 > v0` within the deviation band still yields "flat";
with one-hot configured, the label becomes the length-3 uint8 vector with
a single 1 at the label index; with deviation 5: `[100, 102] ↦ 0`,
`[100, 110] ↦ 1`, `[100, 90] ↦ 2`. -/
theorem trend_label_precedence :
    (∀ (v0 v1 : Rat) (rest : List Rat) (p : TrendValidator), v0 ≠ 0 →
      (|(v1 - v0) / v0| * 100 ≤ p.deviation →
        TrendArray.create (v0 :: v1 :: rest) p =
          (if p.one_hot_encoding then some (.ohe (oneHot 3 0)) else some (.label 0)))
      ∧ (¬ |(v1 - v0) / v0| * 100 ≤ p.deviation → v1 > v0 →
        TrendArray.create (v0 :: v1 :: rest) p =
          (if p.one_hot_encoding then some (.ohe (oneHot 3 1)) else some (.label 1)))
      ∧ (¬ |(v1 - v0) / v0| * 100 ≤ p.deviation → ¬ v1 > v0 →
        TrendArray.create (v0 :: v1 :: rest) p =
          (if p.one_hot_encoding then some (.ohe (oneHot 3 2)) else some (.label 2))))
    ∧ oneHot 3 0 = [1, 0, 0] ∧ oneHot 3 1 = [0, 1, 0] ∧ oneHot 3 2 = [0, 0, 1]
    ∧ TrendArray.create [100, 102] ⟨5, false⟩ = some (.label 0)
    ∧ TrendArray.create [100, 110] ⟨5, false⟩ = some (.label 1)
    ∧ TrendArray.create [100, 90] ⟨5, false⟩ = some (.label 2) := by
  refine ⟨fun v0 v1 rest p h0 => trend_create_cases v0 v1 rest p h0,
    by decide, by decide, by decide, ?_, ?_, ?_⟩
  · have h := (trend_create_cases 100 102 [] ⟨5, false⟩ (by norm_num)).1
      (by norm_num [abs, max_def])
    simpa using h
  · have h := (trend_create_cases 100 110 [] ⟨5, false⟩ (by norm_num)).2.1
      (by norm_num [abs, max_def]) (by norm_num)
    simpa using h
  · have h := (trend_create_cases 100 90 [] ⟨5, false⟩ (by norm_num)).2.2
      (by norm_num [abs, max_def]) (by norm_num)
    simpa using h

/-- C4 witness: the general statement applied at `deviation = 5` with
one-hot on: `[100, 102]` is flat within the band, `[100, 110]` is up,
`[100, 90]` is down. -/
theorem trend_label_precedence_witness :
    TrendArray.create [100, 102, 7] ⟨5, true⟩ = some (.ohe [1, 0, 0])
    ∧ TrendArray.create [100, 110] ⟨5, true⟩ = some (.ohe [0, 1, 0])
    ∧ TrendArray.create [100, 90] ⟨5, true⟩ = some (.ohe [0, 0, 1]) := by
  refine ⟨?_, ?_, ?_⟩
  · have h := (trend_label_precedence.1 100 102 [7] ⟨5, true⟩ (by norm_num)).1
      (by norm_num [abs, max_def])
    simpa [oneHot] using h
  · have h := (trend_label_precedence.1 100 110 [] ⟨5, true⟩ (by norm_num)).2.1
      (by norm_num [abs, max_def]) (by norm_num)
    simpa [oneHot] using h
  · have h := (trend_label_precedence.1 100 90 [] ⟨5, true⟩ (by norm_num)).2.2
      (by norm_num [abs, max_def]) (by norm_num)
    simpa [oneHot] using h

/-- C5 counterexample: with first value 0 the numpy division yields inf
(with a RuntimeWarning, not an exception), the flat comparison is false,
and `TrendArray.create [0, 5]` returns the normally classified label 1 —
the call does not fail. -/
theorem trend_zero_denominator_returns :
    TrendArray.create [0, 5] ⟨5, false⟩ = some (.label 1) := by
  unfold TrendArray.create
  norm_num [PyFloat.divFin, PyFloat.pyabs, PyFloat.mulPos, PyFloat.leFin]

/-- C5 (amended): when the first value is zero, the percentage change is
±inf (or nan for `v1 = 0`), every comparison with the deviation is false,
and `TrendArray.create` returns label 1 when `v1 > 0` and label 2
otherwise (one-hot encoded on demand) — it never returns "flat" and never
propagates an error. -/
theorem trend_zero_denominator_classifies :
    ∀ (v1 : Rat) (rest : List Rat) (p : TrendValidator),
      TrendArray.create (0 :: v1 :: rest) p =
        (if p.one_hot_encoding then some (.ohe (oneHot 3 (if v1 > 0 then 1 else 2)))
         else some (.label (if v1 > 0 then 1 else 2))) := by
  intro v1 rest p
  unfold TrendArray.create
  rcases lt_trichotomy v1 0 with hlt | heq | hgt
  · have h1 : ¬ v1 > (0 : Rat) := by linarith
    simp [PyFloat.divFin, PyFloat.pyabs, PyFloat.mulPos, PyFloat.leFin, hlt,
      not_lt.mpr (le_of_lt hlt), h1]
  · subst heq
    simp [PyFloat.divFin, PyFloat.pyabs, PyFloat.mulPos, PyFloat.leFin]
  · simp [PyFloat.divFin, PyFloat.pyabs, PyFloat.mulPos, PyFloat.leFin, hgt,
      not_lt.mpr (le_of_lt hgt)]

/-- `round(x, 0)` of an integer value is that integer. -/
lemma pyRound_int (n : Int) : pyRound (n : Rat) = n := by
  have h : (Rat.floor (n : Rat)) = n := by
    show ⌊(n : Rat)⌋ = n
    exact Int.floor_intCast n
  simp [pyRound, h]

/-- C3: `AudioArray.create` parses `"path;start:stop"` into offset and
stop seconds, takes `duration = stop − offset`, and when the loaded
waveform is shorter than `round(sample_rate × duration)` samples
right-pads it with zeros to exactly that length; with the raw
`audio_signal` feature the returned tensor is the padded waveform, of
length exactly `round(sample_rate × duration)` with a zero tail. -/
theorem audio_silence_padding :
    ∀ (load : String → Nat → Rat → Rat → String → List Rat)
      (feat : AudioParameterTypes → Nat → List Rat → List (List Rat))
      (source path : String) (offset stop : Rat) (sr : Nat) (res : String),
      AudioArray.parseSource source = some (path, offset, stop) →
      ((load path sr offset (stop - offset) res).length : Int)
          < pyRound ((sr : Rat) * (stop - offset)) →
      AudioArray.create load feat source ⟨[.audio_signal], sr, res⟩ =
        some ⟨[(pyRound ((sr : Rat) * (stop - offset))).toNat],
          load path sr offset (stop - offset) res
            ++ List.replicate ((pyRound ((sr : Rat) * (stop - offset))
              - ((load path sr offset (stop - offset) res).length : Int)).toNat) 0⟩ := by
  intro load feat source path offset stop sr res hparse hlt
  unfold AudioArray.create
  rw [hparse]
  simp only [List.head?_cons, Option.bind_eq_bind, Option.some_bind]
  rw [if_pos hlt]
  have hlen : (load path sr offset (stop - offset) res).length
      + (pyRound ((sr : Rat) * (stop - offset))
        - ((load path sr offset (stop - offset) res).length : Int)).toNat
      = (pyRound ((sr : Rat) * (stop - offset))).toNat := by omega
  simp only [ndOfVec, List.length_append, List.length_replicate, hlen]

/-- C3 witness: requesting duration 2.0 s at sample rate 16000 from a
1.5 s clip (24000 loaded samples) yields a tensor of length exactly
32000 whose tail is 8000 zeros. -/
theorem audio_silence_padding_witness :
    AudioArray.parseSource "clip.wav;0:2" = some ("clip.wav", 0, 2)
    ∧ ((List.replicate 24000 (1 : Rat)).length : Int) < pyRound ((16000 : Rat) * (2 - 0))
    ∧ AudioArray.create (fun _ _ _ _ _ => List.replicate 24000 1)
        (fun _ _ _ => []) "clip.wav;0:2" ⟨[.audio_signal], 16000, "kaiser_best"⟩ =
      some ⟨[32000], List.replicate 24000 1 ++ List.replicate 8000 0⟩ := by
  have hround : pyRound ((16000 : Rat) * (2 - 0)) = 32000 := by
    have : ((16000 : Rat) * (2 - 0)) = ((32000 : Int) : Rat) := by norm_num
    rw [this, pyRound_int]
  have hparse : AudioArray.parseSource "clip.wav;0:2" = some ("clip.wav", 0, 2) := by
    decide
  have hlt : ((List.replicate 24000 (1 : Rat)).length : Int)
      < pyRound ((16000 : Rat) * (2 - 0)) := by
    rw [hround]
    simp only [List.length_replicate]
    decide
  refine ⟨hparse, hlt, ?_⟩
  have h := audio_silence_padding (fun _ _ _ _ _ => List.replicate 24000 1)
    (fun _ _ _ => []) "clip.wav;0:2" "clip.wav" 0 2 16000 "kaiser_best" hparse hlt
  rw [h]
  rw [show ((16000 : Nat) : Rat) * (2 - 0) = ((32000 : Int) : Rat) by push_cast; norm_num,
    pyRound_int]
  simp only [List.length_replicate]
  norm_num
  exact ⟨rfl, rfl⟩

/-- C6: `create` propagates an error on malformed source and unknown
label — `ClassificationArray.create` fails for every label not in
`classes_names` and for a contained label returns its zero-based index
(one-hot expanded to a vector of length `len(classes_names)` with a
single 1 at that index when configured); `RegressionArray.create` fails
for every string `float` cannot parse; `AudioArray.create` fails for
every source that does not split into the `path;start:stop` sub-fields.
-/
theorem create_malformed_source_fails :
    (∀ (source : String) (p : ClassificationValidator),
      source ∉ p.classes_names → ClassificationArray.create source p = none)
    ∧ (∀ (source : String) (p : ClassificationValidator) (i : Nat),
      p.classes_names.indexOf? source = some i →
      ClassificationArray.create source p =
        (if p.one_hot_encoding then some (.ohe (oneHot p.classes_names.length i))
         else some (.idx i)))
    ∧ (∀ source : String, floatParse source = none →
      RegressionArray.create source = none)
    ∧ (∀ (load : String → Nat → Rat → Rat → String → List Rat)
        (feat : AudioParameterTypes → Nat → List Rat → List (List Rat))
        (source : String) (p : AudioValidator),
      AudioArray.parseSource source = none →
      AudioArray.create load feat source p = none)
    ∧ (∀ source : String, (splitOnChar ';' source.toList).length ≠ 2 →
      AudioArray.parseSource source = none) := by
  refine ⟨?_, ?_, ?_, ?_, ?_⟩
  · intro source p h
    have hnone : p.classes_names.indexOf? source = none := by
      rw [List.indexOf?_eq_none_iff]
      intro x hx
      simp only [beq_iff_eq]
      intro e
      exact h (e ▸ hx)
    unfold ClassificationArray.create
    rw [hnone]
  · intro source p i h
    unfold ClassificationArray.create
    rw [h]
  · intro source h
    unfold RegressionArray.create
    rw [h]
    rfl
  · intro load feat source p h
    cases hp : p.parameter.head? <;> simp [AudioArray.create, h, hp]
  · intro source h
    unfold AudioArray.parseSource
    rcases hl : splitOnChar ';' source.toList with _ | ⟨a, _ | ⟨b, _ | ⟨c, t⟩⟩⟩
    · rfl
    · rfl
    · exact absurd (by rw [hl]; rfl) h
    · rfl

/-- C6 witness: the unknown label "fish" fails against
`["cat", "dog"]` while "dog" one-hot encodes to `[0, 1]`; the
unparsable string "abc" fails Regression; the source "nopath" without a
`;` fails Audio. -/
theorem create_malformed_source_fails_witness :
    ("fish" ∉ ["cat", "dog"]
      ∧ ClassificationArray.create "fish" ⟨["cat", "dog"], true⟩ = none)
    ∧ (["cat", "dog"].indexOf? "dog" = some 1
      ∧ ClassificationArray.create "dog" ⟨["cat", "dog"], true⟩ = some (.ohe [0, 1]))
    ∧ (floatParse "abc" = none ∧ RegressionArray.create "abc" = none)
    ∧ (AudioArray.parseSource "nopath" = none
      ∧ AudioArray.create (fun _ _ _ _ _ => []) (fun _ _ _ => []) "nopath"
          ⟨[.audio_signal], 8000, "kaiser_fast"⟩ = none)
    ∧ ((splitOnChar ';' "nopath".toList).length ≠ 2
      ∧ AudioArray.parseSource "nopath" = none) := by
  refine ⟨⟨by decide, ?_⟩, ⟨by decide, ?_⟩, ⟨by decide, ?_⟩, ⟨by decide, ?_⟩,
    ⟨by decide, ?_⟩⟩
  · exact create_malformed_source_fails.1 "fish" ⟨["cat", "dog"], true⟩ (by decide)
  · have h := create_malformed_source_fails.2.1 "dog" ⟨["cat", "dog"], true⟩ 1 (by decide)
    simpa [oneHot] using h
  · exact create_malformed_source_fails.2.2.1 "abc" (by decide)
  · exact create_malformed_source_fails.2.2.2.1 (fun _ _ _ _ _ => []) (fun _ _ _ => [])
      "nopath" ⟨[.audio_signal], 8000, "kaiser_fast"⟩ (by decide)
  · exact create_malformed_source_fails.2.2.2.2 "nopath" (by decide)

/-- C7: a pixel is marked 1 for a class exactly when all three channel
values lie within `color_channel ± rgb_range` (inclusive); the per-class
binary masks are stacked along a new trailing axis in the configured
class order, giving element `[i][j][k]` for pixel `(i, j)` and class `k`
with one entry per configured class; no mutual exclusivity is enforced —
the pixel `(5,5,5)` is 1 for both classes `(0,0,0)` and `(10,10,10)`
with `rgb_range = 10`; class color `(255,0,0)` with `rgb_range = 10`
marks pixel `(250,5,5)` as 1 and pixel `(0,0,0)` as 0. -/
theorem segmentation_tolerance_masks :
    (∀ (color px : Pixel) (r : Int),
      SegmentationArray.pixelInClass color px r = true ↔
        (color.r - r ≤ px.r ∧ px.r ≤ color.r + r
         ∧ color.g - r ≤ px.g ∧ px.g ≤ color.g + r
         ∧ color.b - r ≤ px.b ∧ px.b ≤ color.b + r))
    ∧ (∀ (img : List (List Pixel)) (p : SegmentationValidator),
      (SegmentationArray.image_to_ohe img p).length = img.length)
    ∧ (∀ (img : List (List Pixel)) (p : SegmentationValidator) (i j k : Nat)
        (row : List Pixel) (px : Pixel) (color : Pixel),
      img[i]? = some row → row[j]? = some px → p.classes[k]? = some color →
      ∃ mrow mpx,
        (SegmentationArray.image_to_ohe img p)[i]? = some mrow
        ∧ mrow[j]? = some mpx
        ∧ mrow.length = row.length
        ∧ mpx.length = p.classes.length
        ∧ mpx[k]? = some (if SegmentationArray.pixelInClass color px p.rgb_range
            then 1 else 0))
    ∧ SegmentationArray.image_to_ohe [[⟨250, 5, 5⟩, ⟨0, 0, 0⟩]] ⟨[⟨255, 0, 0⟩], 10⟩
        = [[[1], [0]]]
    ∧ SegmentationArray.image_to_ohe [[⟨5, 5, 5⟩]] ⟨[⟨0, 0, 0⟩, ⟨10, 10, 10⟩], 10⟩
        = [[[1, 1]]] := by
  refine ⟨?_, ?_, ?_, by decide, by decide⟩
  · intro color px r
    simp only [SegmentationArray.pixelInClass, Bool.and_eq_true, decide_eq_true_eq,
      ge_iff_le]
    tauto
  · intro img p
    unfold SegmentationArray.image_to_ohe
    simp
  · intro img p i j k row px color hi hj hk
    refine ⟨row.map (fun px => p.classes.map (fun color =>
        if SegmentationArray.pixelInClass color px p.rgb_range then 1 else 0)),
      p.classes.map (fun color =>
        if SegmentationArray.pixelInClass color px p.rgb_range then 1 else 0),
      ?_, ?_, by simp, by simp, ?_⟩
    · unfold SegmentationArray.image_to_ohe
      rw [List.getElem?_map, hi]
      rfl
    · rw [List.getElem?_map, hj]
      rfl
    · rw [List.getElem?_map, hk]
      rfl

/-- C7 witness: the elementwise description applied to the one-pixel
image `(250,5,5)` against class color `(255,0,0)` with tolerance 10. -/
theorem segmentation_tolerance_masks_witness :
    SegmentationArray.pixelInClass ⟨255, 0, 0⟩ ⟨250, 5, 5⟩ 10 = true
    ∧ (∃ mrow mpx,
      (SegmentationArray.image_to_ohe [[⟨250, 5, 5⟩]] ⟨[⟨255, 0, 0⟩], 10⟩)[0]?
          = some mrow
        ∧ mrow[0]? = some mpx
        ∧ mrow.length = ([(⟨250, 5, 5⟩ : Pixel)]).length
        ∧ mpx.length = ([(⟨255, 0, 0⟩ : Pixel)]).length
        ∧ mpx[0]? = some (if SegmentationArray.pixelInClass ⟨255, 0, 0⟩ ⟨250, 5, 5⟩ 10
            then 1 else 0)) :=
  ⟨by decide,
    segmentation_tolerance_masks.2.2.1 [[⟨250, 5, 5⟩]] ⟨[⟨255, 0, 0⟩], 10⟩ 0 0 0
      [⟨250, 5, 5⟩] ⟨250, 5, 5⟩ ⟨255, 0, 0⟩ (by decide) (by decide) (by decide)⟩

/-- C8: for the column-reshape variants — Timeseries, Regression and
Depth `preprocess` on any tensor, and Audio `preprocess` on a
multi-dimensional tensor — whenever the fitted transform preserves the
element count of its column-shaped input, the output tensor has exactly
the input tensor's shape. -/
theorem column_preprocess_shape_preserving :
    ∀ (transform : NdArray → NdArray) (a : NdArray),
      a.data.length = a.shape.prod →
      (transform ⟨[a.data.length, 1], a.data⟩).data.length = a.data.length →
      (TimeseriesArray.preprocess transform a
          = some ⟨a.shape, (transform ⟨[a.data.length, 1], a.data⟩).data⟩
        ∧ RegressionArray.preprocess transform a
          = some ⟨a.shape, (transform ⟨[a.data.length, 1], a.data⟩).data⟩
        ∧ DepthArray.preprocess transform a
          = some ⟨a.shape, (transform ⟨[a.data.length, 1], a.data⟩).data⟩
        ∧ (1 < a.shape.length →
          AudioArray.preprocess transform a
            = some ⟨a.shape, (transform ⟨[a.data.length, 1], a.data⟩).data⟩)) := by
  intro transform a h1 h2
  have hcol : columnTransformPreprocess transform a
      = some ⟨a.shape, (transform ⟨[a.data.length, 1], a.data⟩).data⟩ := by
    unfold columnTransformPreprocess ndReshape
    rw [if_pos (h2.trans h1)]
  refine ⟨hcol, hcol, hcol, ?_⟩
  intro hdim
  unfold AudioArray.preprocess
  rw [if_pos hdim]
  unfold ndReshape
  rw [if_pos (h2.trans h1)]

/-- C8 witness: the identity transform on a well-formed 2×2 tensor:
every column-reshape `preprocess` returns it with shape `[2, 2]`
unchanged. -/
theorem column_preprocess_shape_preserving_witness :
    (⟨[2, 2], [1, 2, 3, 4]⟩ : NdArray).data.length = ([2, 2] : List Nat).prod
    ∧ TimeseriesArray.preprocess (fun x => x) ⟨[2, 2], [1, 2, 3, 4]⟩
        = some ⟨[2, 2], [1, 2, 3, 4]⟩
    ∧ RegressionArray.preprocess (fun x => x) ⟨[2, 2], [1, 2, 3, 4]⟩
        = some ⟨[2, 2], [1, 2, 3, 4]⟩
    ∧ DepthArray.preprocess (fun x => x) ⟨[2, 2], [1, 2, 3, 4]⟩
        = some ⟨[2, 2], [1, 2, 3, 4]⟩
    ∧ AudioArray.preprocess (fun x => x) ⟨[2, 2], [1, 2, 3, 4]⟩
        = some ⟨[2, 2], [1, 2, 3, 4]⟩ := by
  have h := column_preprocess_shape_preserving (fun x => x) ⟨[2, 2], [1, 2, 3, 4]⟩
    (by simp) rfl
  exact ⟨by simp, h.1, h.2.1, h.2.2.1, h.2.2.2 (by simp)⟩

/-- Shape of the transposed one-row feature matrix: `(frames, 1)`. -/
lemma ndOfMatrix_matTranspose_single (x : Rat) (xs : List Rat) :
    (ndOfMatrix (matTranspose [x :: xs])).shape = [xs.length + 1, 1] := by
  unfold ndOfMatrix matTranspose
  simp [List.range_succ_eq_map]

/-- C9 counterexample: with the zero-crossing-rate feature and an
underlying one-row feature matrix of 3 frames, `AudioArray.create`
returns a tensor of shape `[3, 1]` — two-dimensional, not
one-dimensional: unlike RMS, the zero-crossing-rate branch does not take
the first row of the 2-D feature output. -/
theorem audio_zcr_counterexample :
    (AudioArray.create (fun _ _ _ _ _ => [9, 9]) (fun _ _ _ => [[1, 2, 3]])
      "c.wav;0:2" ⟨[.zero_crossing_rate], 1, "r"⟩).map NdArray.shape
      = some [3, 1] := by
  have hparse : AudioArray.parseSource "c.wav;0:2" = some ("c.wav", 0, 2) := by decide
  unfold AudioArray.create
  rw [hparse]
  simp only [List.head?_cons, Option.bind_eq_bind, Option.some_bind]
  decide

/-- C9 (amended): with the zero-crossing-rate feature the returned
tensor is the transposed underlying `(1, frames)` feature matrix and so
has two-dimensional shape `(frames, 1)`, whereas with the RMS feature
`create` takes the first row of its underlying 2-D output and returns a
one-dimensional tensor. -/
theorem audio_zcr_rms_shapes :
    ∀ (load : String → Nat → Rat → Rat → String → List Rat)
      (feat : AudioParameterTypes → Nat → List Rat → List (List Rat))
      (source path : String) (offset stop : Rat) (sr : Nat) (res : String),
      AudioArray.parseSource source = some (path, offset, stop) →
      (∀ y, ∃ x xs, feat .zero_crossing_rate sr y = [x :: xs]) →
      (∀ y, ∃ x xs rest, feat .rms sr y = (x :: xs) :: rest) →
      (∃ a F, AudioArray.create load feat source ⟨[.zero_crossing_rate], sr, res⟩
          = some a ∧ a.shape = [F, 1] ∧ 0 < F)
      ∧ (∃ a F, AudioArray.create load feat source ⟨[.rms], sr, res⟩
          = some a ∧ a.shape = [F]) := by
  intro load feat source path offset stop sr res hparse hz hr
  constructor
  · obtain ⟨x, xs, hxy⟩ := hz
      (if pyRound ((sr : Rat) * (stop - offset))
          > ((load path sr offset (stop - offset) res).length : Int) then
        load path sr offset (stop - offset) res
          ++ List.replicate ((pyRound ((sr : Rat) * (stop - offset))
            - ((load path sr offset (stop - offset) res).length : Int)).toNat) 0
      else load path sr offset (stop - offset) res)
    refine ⟨ndOfMatrix (matTranspose [x :: xs]), xs.length + 1, ?_, ?_, Nat.succ_pos _⟩
    · unfold AudioArray.create
      rw [hparse]
      simp only [List.head?_cons, Option.bind_eq_bind, Option.some_bind]
      rw [hxy]
    · exact ndOfMatrix_matTranspose_single x xs
  · obtain ⟨x, xs, rest, hxy⟩ := hr
      (if pyRound ((sr : Rat) * (stop - offset))
          > ((load path sr offset (stop - offset) res).length : Int) then
        load path sr offset (stop - offset) res
          ++ List.replicate ((pyRound ((sr : Rat) * (stop - offset))
            - ((load path sr offset (stop - offset) res).length : Int)).toNat) 0
      else load path sr offset (stop - offset) res)
    refine ⟨ndOfVec (x :: xs), xs.length + 1, ?_, ?_⟩
    · unfold AudioArray.create
      rw [hparse]
      simp only [List.head?_cons, Option.bind_eq_bind, Option.some_bind]
      rw [hxy]
    · simp [ndOfVec]

/-- C9 witness: a one-row, three-frame feature output gives shape
`[3, 1]` for zero-crossing-rate and a 1-D shape for RMS. -/
theorem audio_zcr_rms_shapes_witness :
    AudioArray.parseSource "c.wav;0:2" = some ("c.wav", 0, 2)
    ∧ (∃ a F, AudioArray.create (fun _ _ _ _ _ => [9, 9]) (fun _ _ _ => [[1, 2, 3]])
        "c.wav;0:2" ⟨[.zero_crossing_rate], 1, "r"⟩ = some a ∧ a.shape = [F, 1] ∧ 0 < F)
    ∧ (∃ a F, AudioArray.create (fun _ _ _ _ _ => [9, 9]) (fun _ _ _ => [[1, 2, 3]])
        "c.wav;0:2" ⟨[.rms], 1, "r"⟩ = some a ∧ a.shape = [F]) := by
  have h := audio_zcr_rms_shapes (fun _ _ _ _ _ => [9, 9]) (fun _ _ _ => [[1, 2, 3]])
    "c.wav;0:2" "c.wav" 0 2 1 "r" (by decide) (fun _ => ⟨1, [2, 3], rfl⟩)
    (fun _ => ⟨1, [2, 3], [], rfl⟩)
  exact ⟨by decide, h.1, h.2⟩

/-- Allocation leaves every existing address unchanged. -/
lemma Mem.get_alloc_lt (m : Mem) (a : PyArray) (addr : Nat)
    (h : addr < m.arrays.length) : (m.alloc a).1.get addr = m.get addr := by
  unfold Mem.alloc Mem.get
  simp only
  rw [List.getD_append _ _ _ _ h]

/-- Reading the address returned by `alloc` yields the new array. -/
lemma Mem.get_alloc_self (m : Mem) (a : PyArray) :
    (m.alloc a).1.get (m.alloc a).2 = a := by
  unfold Mem.alloc Mem.get
  simp only
  rw [List.getD_append_right _ _ _ _ (le_refl _)]
  simp

/-- An in-place row write at one address leaves every other address
unchanged. -/
lemma Mem.get_setRow_ne (m : Mem) (addr i : Nat) (r : List Rat) (b : Nat)
    (h : b ≠ addr) : (m.setRow addr i r).get b = m.get b := by
  unfold Mem.setRow Mem.get
  simp only
  by_cases hb : b < m.arrays.length
  · rw [List.getD_eq_getElem _ _ (by simpa using hb),
      List.getD_eq_getElem _ _ hb]
    simp only [List.getElem_set_ne (Ne.symm h)]
  · rw [List.getD_eq_default _ _ (by simpa using Nat.le_of_not_lt hb),
      List.getD_eq_default _ _ (Nat.le_of_not_lt hb)]

/-- A row write does not change the heap size. -/
lemma Mem.setRow_length (m : Mem) (addr i : Nat) (r : List Rat) :
    (m.setRow addr i r).arrays.length = m.arrays.length := by
  unfold Mem.setRow
  simp

/-- A row write never changes an array's dtype. -/
lemma Mem.get_setRow_dtype (m : Mem) (addr i : Nat) (r : List Rat) :
    ((m.setRow addr i r).get addr).dtype = (m.get addr).dtype := by
  unfold Mem.setRow Mem.get
  simp only
  by_cases hb : addr < m.arrays.length
  · rw [List.getD_eq_getElem _ _ (by simpa using hb)]
    simp [List.getElem_set_self]
  · rw [List.getD_eq_default _ _ (by simpa using Nat.le_of_not_lt hb)]
    rw [List.getD_eq_default _ _ (Nat.le_of_not_lt hb)]

/-- The row-rewriting loop of the terra scaler only touches `fresh`. -/
lemma fold_setRow_get_ne (t : List Rat → List Rat) (fresh : Nat) (is : List Nat) :
    ∀ (acc : Mem) (b : Nat), b ≠ fresh →
      ((is.foldl (fun acc i =>
          Mem.setRow acc fresh i (t ((acc.get fresh).rows.getD i []))) acc).get b
        = acc.get b) := by
  induction is with
  | nil => intro acc b _; rfl
  | cons i is ih =>
      intro acc b hb
      simp only [List.foldl_cons]
      rw [ih _ b hb, Mem.get_setRow_ne _ _ _ _ _ hb]

/-- The row-rewriting loop preserves the dtype at `fresh`. -/
lemma fold_setRow_dtype (t : List Rat → List Rat) (fresh : Nat) (is : List Nat) :
    ∀ (acc : Mem),
      (((is.foldl (fun acc i =>
          Mem.setRow acc fresh i (t ((acc.get fresh).rows.getD i []))) acc).get
            fresh).dtype
        = (acc.get fresh).dtype) := by
  induction is with
  | nil => intro acc; rfl
  | cons i is ih =>
      intro acc
      simp only [List.foldl_cons]
      rw [ih, Mem.get_setRow_dtype]

/-- C10: under the `terra_image_scaler` policy, `ImageArray.preprocess`
never mutates the caller's array — `astype(np.float32)` allocates a
fresh array before the per-row in-place writes, so after the call the
array at the input address is unchanged, and the returned array is a
distinct float32 array at a different address. -/
theorem image_terra_scaler_no_mutation :
    ∀ (transform : List Rat → List Rat) (m : Mem) (addr : Nat),
      addr < m.arrays.length →
      ((ImageArray.preprocessTerra transform m addr).1.get addr = m.get addr
        ∧ (ImageArray.preprocessTerra transform m addr).2 ≠ addr
        ∧ ((ImageArray.preprocessTerra transform m addr).1.get
            (ImageArray.preprocessTerra transform m addr).2).dtype = DType.float32) := by
  intro transform m addr h
  have hfresh : (ImageArray.preprocessTerra transform m addr).2 = m.arrays.length := rfl
  refine ⟨?_, ?_, ?_⟩
  · show ((List.range ((m.get addr).rows.length)).foldl _ (m.alloc (astypeF32 (m.get addr))).1).get addr = m.get addr
    rw [fold_setRow_get_ne _ _ _ _ addr (Nat.ne_of_lt h),
      Mem.get_alloc_lt _ _ _ h]
  · rw [hfresh]
    exact Nat.ne_of_gt h
  · show (((List.range ((m.get addr).rows.length)).foldl _ (m.alloc (astypeF32 (m.get addr))).1).get (m.arrays.length)).dtype = DType.float32
    rw [fold_setRow_dtype]
    have : (m.alloc (astypeF32 (m.get addr))).1.get (m.arrays.length)
        = astypeF32 (m.get addr) := Mem.get_alloc_self m _
    rw [this]
    rfl

/-- C10 witness: a one-array heap holding a uint8 2×2 image, scaled with
the identity row transform: the original address still holds the uint8
original, and the result lives at a new address with dtype float32. -/
theorem image_terra_scaler_no_mutation_witness :
    (0 : Nat) < (⟨[⟨.uint8, [[1, 2], [3, 4]]⟩]⟩ : Mem).arrays.length
    ∧ ((ImageArray.preprocessTerra (fun r => r) ⟨[⟨.uint8, [[1, 2], [3, 4]]⟩]⟩ 0).1.get 0
        = (⟨[⟨.uint8, [[1, 2], [3, 4]]⟩]⟩ : Mem).get 0
      ∧ (ImageArray.preprocessTerra (fun r => r) ⟨[⟨.uint8, [[1, 2], [3, 4]]⟩]⟩ 0).2 ≠ 0
      ∧ ((ImageArray.preprocessTerra (fun r => r) ⟨[⟨.uint8, [[1, 2], [3, 4]]⟩]⟩ 0).1.get
          (ImageArray.preprocessTerra (fun r => r) ⟨[⟨.uint8, [[1, 2], [3, 4]]⟩]⟩ 0).2).dtype
        = DType.float32) :=
  ⟨by decide, image_terra_scaler_no_mutation (fun r => r)
    ⟨[⟨.uint8, [[1, 2], [3, 4]]⟩]⟩ 0 (by decide)⟩
